import Mathlib

/-!
Verification development for the `unto` travel-planner frontend
(`src/frontend/unto/src/app/page.tsx` and its variant `src/unnamed/part_000`).

The development shallowly embeds the JavaScript values the page manipulates
(`JsValue`), the hand-rolled `jsonToMarkdown` renderer, a model of
`JSON.parse` on the integer fragment of JSON, the two travel-data
normalizers found in `renderStep` case 4, the total-trip-cost computation,
and the wizard/poller state machine (`nextStep`, `prevStep`,
`startPlanning`, `startPolling`, `pollPlanState`, reset) together with the
closure-capture discipline of React function components: an interval
callback created by `setInterval` keeps reading the `pollingInterval`
value of the render in which it was created.
-/

namespace Unto

/-- Model of a JavaScript/JSON value as manipulated by the page.
`undefined` models the absent-property value (absent property); object field
lists are assumed key-unique, as produced by `JSON.parse`. JSON numbers are
modelled as integers (the fragment exercised by the page: all prices in the
repository data are integral; fraction and exponent forms are outside the
model). -/
inductive JsValue where
  | null
  | undefined
  | bool (b : Bool)
  | num (n : Int)
  | str (s : String)
  | arr (elems : List JsValue)
  | obj (fields : List (String × JsValue))
deriving Repr

/-- JavaScript truthiness of a modelled value (`!data`, `if (x)` tests in
the source): `null`, `undefined`, `false`, `0` and the empty string are
falsy; arrays and objects are always truthy. -/
def truthy : JsValue → Bool
  | .null => false
  | .undefined => false
  | .bool b => b
  | .num n => n != 0
  | .str s => s != ""
  | .arr _ => true
  | .obj _ => true

/-- JavaScript property read `v[k]` as used by the page: on an object the
named field (or `undefined` when absent), `undefined` on every other value
(the source only dereferences behind truthiness or optional-chaining
guards). -/
def getProp (v : JsValue) (k : String) : JsValue :=
  match v with
  | .obj fields =>
    match fields.lookup k with
    | some x => x
    | none => .undefined
  | _ => .undefined

/-- The JavaScript string test (`typeof` returning the string tag). -/
def isStr : JsValue → Bool
  | .str _ => true
  | _ => false

/-- The JavaScript key-presence test on an object field list
(`part_000` tests the `value` key with the `in` operator). -/
def hasKey (fields : List (String × JsValue)) (k : String) : Bool :=
  (fields.map Prod.fst).contains k

/-- The indent of `formatValue`: the two-space string repeated `depth` times. -/
def indent (depth : Nat) : String :=
  String.join (List.replicate depth "  ")

/-- The test for a non-null non-array object value inside the object branch
of `formatValue`: true exactly for plain objects. -/
def isPlainObject : JsValue → Bool
  | .obj _ => true
  | _ => false

mutual

/-- The inner `formatValue(value, depth)` of `jsonToMarkdown`
(`page.tsx` lines 48-82): `null`/`undefined` print as `"null"`, strings
print as themselves, numbers and booleans via `toString`, the empty array
as `"[]"`, the empty object as `"\x7b\x7d"`, non-empty arrays as
newline-joined indented bullets, and non-empty objects as blank-line-joined
bolded key/value lines, recursing one depth deeper on each child. -/
def formatValue : JsValue → Nat → String
  | .null, _ => "null"
  | .undefined, _ => "null"
  | .str s, _ => s
  | .num n, _ => toString n
  | .bool b, _ => toString b
  | .arr elems, depth =>
    if elems.isEmpty then "[]"
    else String.intercalate "\n" (formatItems elems depth)
  | .obj fields, depth =>
    if fields.isEmpty then "\x7b\x7d"
    else String.intercalate "\n\n" (formatEntries fields depth)

/-- The mapped bullet lines of the array branch: indent, a dash, and the
item one depth deeper. -/
def formatItems : List JsValue → Nat → List String
  | [], _ => []
  | x :: xs, depth =>
    (indent depth ++ "- " ++ formatValue x (depth + 1)) :: formatItems xs depth

/-- `entries.map(([key, val]) => ...)` of the object branch: a plain-object
child is rendered on the following lines, any other child inline. -/
def formatEntries : List (String × JsValue) → Nat → List String
  | [], _ => []
  | (k, v) :: fs, depth =>
    (if isPlainObject v then
      indent depth ++ "**" ++ k ++ ":**\n" ++ formatValue v (depth + 1)
    else
      indent depth ++ "**" ++ k ++ ":** " ++ formatValue v (depth + 1)) :: formatEntries fs depth

end

/-- The helper `jsonToMarkdown` (`page.tsx` lines 39-85): falsy input
yields the empty string, a string is returned as written, anything else is
rendered by `formatValue` at depth 0. -/
def jsonToMarkdown (data : JsValue) : String :=
  if !truthy data then ""
  else
    match data with
    | .str s => s
    | _ => formatValue data 0

/-! ### A model of `JSON.parse`

The page calls the platform builtin `JSON.parse` on `final_output` payloads.
The builtin is modelled here as a recursive-descent parser over the
character list of the input, restricted to the integer fragment of JSON
(a number with a fraction or exponent part, outside the shapes the page
ever receives, is rejected instead of being read as a float). Parsing
returns `none` exactly where `JSON.parse` would throw on this fragment. -/

/-- The opening brace character. -/
def lbrace : Char := Char.ofNat 123

/-- The closing brace character. -/
def rbrace : Char := Char.ofNat 125

/-- JSON insignificant whitespace. -/
def isJsonWs (c : Char) : Bool :=
  c = ' ' || c = '\t' || c = '\n' || c = '\r'

/-- Drop leading JSON whitespace. -/
def skipWs (cs : List Char) : List Char :=
  cs.dropWhile isJsonWs

/-- Value of a hexadecimal digit, for `\u` escapes. -/
def hexVal (c : Char) : Option Nat :=
  if '0' ≤ c ∧ c ≤ '9' then some (c.toNat - 48)
  else if 'a' ≤ c ∧ c ≤ 'f' then some (c.toNat - 87)
  else if 'A' ≤ c ∧ c ≤ 'F' then some (c.toNat - 70)
  else none

/-- Body of a JSON string after the opening quote: returns the decoded
characters and the remainder after the closing quote. Unescaped control
characters and bad escapes make the string (and hence the parse) fail,
as in `JSON.parse`. -/
def parseStrChars : List Char → Option (List Char × List Char)
  | [] => none
  | c :: rest =>
    if c = '"' then some ([], rest)
    else if c = '\\' then
      match rest with
      | [] => none
      | e :: r2 =>
        if e = '"' then (parseStrChars r2).map (fun p => ('"' :: p.1, p.2))
        else if e = '\\' then (parseStrChars r2).map (fun p => ('\\' :: p.1, p.2))
        else if e = '/' then (parseStrChars r2).map (fun p => ('/' :: p.1, p.2))
        else if e = 'b' then (parseStrChars r2).map (fun p => ('\x08' :: p.1, p.2))
        else if e = 'f' then (parseStrChars r2).map (fun p => ('\x0c' :: p.1, p.2))
        else if e = 'n' then (parseStrChars r2).map (fun p => ('\n' :: p.1, p.2))
        else if e = 'r' then (parseStrChars r2).map (fun p => ('\r' :: p.1, p.2))
        else if e = 't' then (parseStrChars r2).map (fun p => ('\t' :: p.1, p.2))
        else if e = 'u' then
          match r2 with
          | h1 :: h2 :: h3 :: h4 :: r3 =>
            match hexVal h1, hexVal h2, hexVal h3, hexVal h4 with
            | some a, some b, some c2, some d =>
              (parseStrChars r3).map (fun p => (Char.ofNat (((a * 16 + b) * 16 + c2) * 16 + d) :: p.1, p.2))
            | _, _, _, _ => none
          | _ => none
        else none
    else if c.toNat < 32 then none
    else (parseStrChars rest).map (fun p => (c :: p.1, p.2))

/-- Read a run of decimal digits as a natural number; rejects an empty run
and a leading zero followed by further digits, as JSON does. -/
def parseDigits (cs : List Char) : Option (Nat × List Char) :=
  let ds := cs.takeWhile Char.isDigit
  let rest := cs.dropWhile Char.isDigit
  if ds.isEmpty then none
  else if ds.length > 1 ∧ ds.head? = some '0' then none
  else some (ds.foldl (fun acc c => acc * 10 + (c.toNat - 48)) 0, rest)

/-- A JSON number in the integer fragment: optional minus sign and digits;
a following `.`, `e` or `E` (a float form) is outside the model and makes
the parse fail. -/
def parseNumber (cs : List Char) : Option (JsValue × List Char) :=
  let core : List Char → Bool → Option (JsValue × List Char) := fun cs2 neg =>
    match parseDigits cs2 with
    | some (n, rest) =>
      match rest with
      | c :: _ =>
        if c = '.' ∨ c = 'e' ∨ c = 'E' then none
        else some (.num (if neg then -(n : Int) else (n : Int)), rest)
      | [] => some (.num (if neg then -(n : Int) else (n : Int)), [])
    | none => none
  match cs with
  | '-' :: rest => core rest true
  | _ => core cs false

mutual

/-- A JSON value: literal keywords, strings, integer-fragment numbers,
arrays and objects. The fuel argument dominates the nesting depth and
member count; `parseJson` supplies more than enough. -/
def parseVal : Nat → List Char → Option (JsValue × List Char)
  | 0, _ => none
  | _ + 1, [] => none
  | fuel + 1, c :: rest =>
    if c = 'n' then
      match rest with
      | 'u' :: 'l' :: 'l' :: r => some (.null, r)
      | _ => none
    else if c = 't' then
      match rest with
      | 'r' :: 'u' :: 'e' :: r => some (.bool true, r)
      | _ => none
    else if c = 'f' then
      match rest with
      | 'a' :: 'l' :: 's' :: 'e' :: r => some (.bool false, r)
      | _ => none
    else if c = '"' then
      (parseStrChars rest).map (fun p => (.str (String.mk p.1), p.2))
    else if c = '-' ∨ c.isDigit then
      parseNumber (c :: rest)
    else if c = lbrace then
      match skipWs rest with
      | c1 :: r1 => if c1 = rbrace then some (.obj [], r1) else parseMembers fuel (c1 :: r1) []
      | [] => none
    else if c = '[' then
      match skipWs rest with
      | ']' :: r1 => some (.arr [], r1)
      | cs1 => parseElems fuel cs1 []
    else none

/-- Members of a JSON object after the opening brace (non-empty case). -/
def parseMembers : Nat → List Char → List (String × JsValue) → Option (JsValue × List Char)
  | 0, _, _ => none
  | fuel + 1, cs, acc =>
    match cs with
    | '"' :: rest =>
      match parseStrChars rest with
      | some (kcs, r1) =>
        match skipWs r1 with
        | ':' :: r2 =>
          match parseVal fuel (skipWs r2) with
          | some (v, r3) =>
            match skipWs r3 with
            | ',' :: r4 => parseMembers fuel (skipWs r4) (acc ++ [(String.mk kcs, v)])
            | c5 :: r5 => if c5 = rbrace then some (.obj (acc ++ [(String.mk kcs, v)]), r5) else none
            | [] => none
          | none => none
        | _ => none
      | none => none
    | _ => none

/-- Elements of a JSON array after the opening bracket (non-empty case). -/
def parseElems : Nat → List Char → List JsValue → Option (JsValue × List Char)
  | 0, _, _ => none
  | fuel + 1, cs, acc =>
    match parseVal fuel cs with
    | some (v, r1) =>
      match skipWs r1 with
      | ',' :: r2 => parseElems fuel (skipWs r2) (acc ++ [v])
      | ']' :: r3 => some (.arr (acc ++ [v]), r3)
      | _ => none
    | none => none

end

/-- Model of `JSON.parse(s)` on the integer fragment: `some` of the parsed
value, or `none` where the builtin throws. -/
def parseJson (s : String) : Option JsValue :=
  match parseVal (s.length + 1) (skipWs s.data) with
  | some (v, rest) => if (skipWs rest).isEmpty then some v else none
  | none => none

/-! ### The result normalizer of `renderStep` case 4 -/

/-- Travel-data extraction of `renderStep` case 4 in
`src/frontend/unto/src/app/page.tsx` (lines 574-598). `travelData` starts
as `null` (modelled by `JsValue.null`): a string `final_output` is
JSON-parsed (staying `null` on failure); otherwise, when
`final_output.value` is truthy, a string value is JSON-parsed (staying
`null` on failure) and a non-string value is taken as is; otherwise
`final_output` itself is taken. The caller guards `final_output` with a
truthiness test, so `null`/`undefined` never reach this code. -/
def extractTravelData (fo : JsValue) : JsValue :=
  match fo with
  | .str s => (parseJson s).getD .null
  | _ =>
    let v := getProp fo "value"
    if truthy v then
      match v with
      | .str s => (parseJson s).getD .null
      | _ => v
    else fo

/-- The same extraction in the variant `src/unnamed/part_000`
(lines 599-624): the wrapper branch tests key presence
(the `in` operator on the `value` key) instead of truthiness of the value. -/
def extractTravelDataV2 (fo : JsValue) : JsValue :=
  match fo with
  | .str s => (parseJson s).getD .null
  | .obj fields =>
    if hasKey fields "value" then
      match getProp (.obj fields) "value" with
      | .str s => (parseJson s).getD .null
      | v => v
    else .obj fields
  | _ => fo

/-- One summand of the total-cost line
`(travelData.X?.price || 0)`: the price field of the named section when it
is a number, and `0` when the section or its price is absent
(`|| 0` maps the number `0` to `0` as well, which the `.num` case already
yields). Non-numeric price values are outside the modelled fragment. -/
def priceOr0 (travelData : JsValue) (k : String) : Int :=
  match getProp (getProp travelData k) "price" with
  | .num n => n
  | _ => 0

/-- The displayed total trip cost (`page.tsx` lines 793-795):
`(travelData.departureFlight?.price || 0) + (travelData.returnFlight?.price
|| 0) + (travelData.accommodation?.price || 0)`. -/
def totalTripCost (travelData : JsValue) : Int :=
  priceOr0 travelData "departureFlight" + priceOr0 travelData "returnFlight" +
    priceOr0 travelData "accommodation"

/-- What the side-panel summary renderer resolves to: an explicit
`final_output.summary` field, an early-returned verbatim string, or the
markdown generated from a resolved travel-data value (whose final text
depends on locale date formatting and is not modelled further). -/
inductive SummaryResult where
  | fromField (v : JsValue)
  | verbatim (s : String)
  | generated (travelData : JsValue)
deriving Repr

/-- Summary-text resolution of `renderStep` case 4 in `page.tsx`
(lines 836-862): prefer a truthy `final_output.summary`; else resolve
`travelData` the same way as the cards (except that a non-string
`final_output` without a truthy `value` leaves `travelData` null here),
returning early with a verbatim string on parse failures; a null
`travelData` falls back to `jsonToMarkdown(final_output)`. -/
def summaryOf (fo : JsValue) : SummaryResult :=
  if truthy (getProp fo "summary") then .fromField (getProp fo "summary")
  else
    match fo with
    | .str s =>
      match parseJson s with
      | none => .verbatim (jsonToMarkdown fo)
      | some travelData =>
        if truthy travelData then .generated travelData
        else .verbatim (jsonToMarkdown fo)
    | _ =>
      if truthy (getProp fo "value") then
        match getProp fo "value" with
        | .str s =>
          match parseJson s with
          | none => .verbatim s
          | some travelData =>
            if truthy travelData then .generated travelData
            else .verbatim (jsonToMarkdown fo)
        | v => .generated v
      else .verbatim (jsonToMarkdown fo)

/-! ### The wizard state controller and plan poller

The component state (`useState` slots) together with the set of live
`setInterval` timers forms the machine state. React function components
re-create their handler closures on every render; a callback registered
with `setInterval` keeps the closure of the render that registered it, so
it reads the `pollingInterval` value of that render forever. The model
therefore stores, with every live timer, the `pollingInterval` value its
callback captured. User-initiated handlers come from the latest render and
read the current committed state. The response to a fetch is applied
atomically with the event that issued it, preserving the order in which
the source establishes state. -/

/-- `TravelFormData` (`page.tsx` lines 12-19). -/
structure TravelFormData where
  origin : String
  destination : String
  departure_date : String
  return_date : String
  cabin_class : String
  passengers : Int
deriving DecidableEq, Repr

/-- The initial and reset form data (`page.tsx` lines 89-96 and 945-952). -/
def defaultFormData : TravelFormData :=
  { origin := ""
    destination := ""
    departure_date := ""
    return_date := ""
    cabin_class := "economy"
    passengers := 1 }

/-- The server-driven `state` field of `PlanState`. -/
inductive RunState where
  | PREPARING
  | IN_PROGRESS
  | COMPLETE
  | FAILED
deriving DecidableEq, Repr

/-- `PlanState` (`page.tsx` lines 21-28). `final_output` is `undefined` when
absent; `error` is optional. -/
structure PlanState where
  plan_run_id : String
  state : RunState
  current_step_index : Int
  outputs : JsValue
  final_output : JsValue
  error : Option String

/-- Outcome of one `GET /plan/id/state` fetch: a parsed `PlanState`
body, or a failure (HTTP 404, another non-2xx status, or a network or
parse error), carrying the status code for the log. -/
inductive PollResponse where
  | success (ps : PlanState)
  | failure (status : Nat)

/-- The whole machine state: the four `useState` slots, the live interval
timers with the `pollingInterval` value each callback captured, and a
fresh-id counter for timers. -/
structure App where
  currentStep : Nat
  formData : TravelFormData
  planState : Option PlanState
  pollingInterval : Option Nat
  timers : List (Nat × Option Nat)
  nextId : Nat

/-- The wizard step ids (`page.tsx` lines 30-36); only the length matters
to the logic (`steps.length - 1` clamps `nextStep`). -/
def steps : List String :=
  ["destination", "dates", "details", "processing", "results"]

/-- `nextStep` (`page.tsx` lines 211-215): increment, clamped below
`steps.length - 1`. -/
def nextStep (s : App) : App :=
  if s.currentStep < steps.length - 1 then { s with currentStep := s.currentStep + 1 } else s

/-- `prevStep` (`page.tsx` lines 217-221): decrement, clamped at 0. -/
def prevStep (s : App) : App :=
  if 0 < s.currentStep then { s with currentStep := s.currentStep - 1 } else s

/-- The response-handling part of `pollPlanState` (`page.tsx` lines
116-179), run in a closure whose `pollingInterval` is `env`: a failed
fetch only logs and returns; a body is stored wholesale with
`setPlanState`; on a terminal `state` the captured `pollingInterval` is
cleared when truthy and `currentStep` is forced to 4. -/
def pollPlanState (env : Option Nat) (r : PollResponse) (s : App) : App :=
  match r with
  | .failure _ => s
  | .success ps =>
    let s := { s with planState := some ps }
    if ps.state = RunState.COMPLETE ∨ ps.state = RunState.FAILED then
      let s :=
        match env with
        | some t =>
          { s with timers := s.timers.filter (fun p => p.1 != t), pollingInterval := none }
        | none => s
      { s with currentStep := 4 }
    else s

/-- `startPolling` (`page.tsx` lines 182-199) as run from a render whose
`pollingInterval` is `env`: clear the captured existing interval, issue the
immediate fetch (counted by the caller; its response is applied after
`setCurrentStep(3)` below), and register a repeating interval whose
callback captures this same render, then `setPollingInterval`. -/
def startPolling (env : Option Nat) (s : App) : App :=
  let s :=
    match env with
    | some t => { s with timers := s.timers.filter (fun p => p.1 != t) }
    | none => s
  { s with
    timers := s.timers ++ [(s.nextId, env)]
    nextId := s.nextId + 1
    pollingInterval := some s.nextId }

/-- The success path of `startPlanning` (`page.tsx` lines 223-267): store
the initial `PlanState`, start polling (one immediate fetch whose response
`r` arrives after the synchronous code below has run), and move to the
processing step. -/
def startPlanning (init : PlanState) (r : PollResponse) (s : App) : App :=
  let env := s.pollingInterval
  let s := { s with planState := some init }
  let s := startPolling env s
  let s := { s with currentStep := 3 }
  pollPlanState env r s

/-- The reset handler of the results step (`page.tsx` lines 935-957),
run from the latest render (`env` is the current `pollingInterval`): clear
the interval when truthy, then return to step 0 with cleared `PlanState`
and default form data. -/
def resetApp (env : Option Nat) (s : App) : App :=
  let s :=
    match env with
    | some t =>
      { s with timers := s.timers.filter (fun p => p.1 != t), pollingInterval := none }
    | none => s
  { s with currentStep := 0, planState := none, formData := defaultFormData }

/-- The events that drive the machine: the two navigation clicks, a
submission whose POST fails, a submission whose POST succeeds (with the
response to the immediate status fetch), the firing of an interval timer
(with the response to its fetch), and the reset click. -/
inductive Ev where
  | next
  | prev
  | submitErr
  | submitOk (init : PlanState) (r : PollResponse)
  | tick (tid : Nat) (r : PollResponse)
  | reset

/-- One event step. The second component counts the status fetches the
event issues: one for the immediate fetch of a successful submission, one
for the fetch of a live-timer firing, zero otherwise (a failed POST is
caught and only logged; a cleared timer no longer fires). -/
def step (s : App) : Ev → App × Nat
  | .next => (nextStep s, 0)
  | .prev => (prevStep s, 0)
  | .submitErr => (s, 0)
  | .submitOk init r => (startPlanning init r s, 1)
  | .tick tid r =>
    match s.timers.find? (fun p => p.1 == tid) with
    | some p => (pollPlanState p.2 r s, 1)
    | none => (s, 0)
  | .reset => (resetApp s.pollingInterval s, 0)

/-- Which events the rendered UI can emit in a given state
(`renderStep`): the Continue button exists at steps 0 and 1 and is
disabled while a required field of that step is empty; Back exists at
steps 1 and 2; Start Planning at step 2; the processing step has no
controls; Plan Another Trip at step 4. Timer firings are environment
events. -/
def uiEnabled (s : App) : Ev → Bool
  | .next =>
    (s.currentStep == 0 && !(s.formData.origin == "") && !(s.formData.destination == "")) ||
      (s.currentStep == 1 && !(s.formData.departure_date == "") && !(s.formData.return_date == ""))
  | .prev => s.currentStep == 1 || s.currentStep == 2
  | .submitErr => s.currentStep == 2
  | .submitOk _ _ => s.currentStep == 2
  | .tick _ _ => true
  | .reset => s.currentStep == 4

/-- The mounted component: step 0, default form data, no plan state, no
interval (`page.tsx` lines 88-98). -/
def initApp : App :=
  { currentStep := 0
    formData := defaultFormData
    planState := none
    pollingInterval := none
    timers := []
    nextId := 0 }

/-- States reachable from the mounted component through UI-emittable
events. -/
inductive UIReachable : App → Prop
  | init : UIReachable initApp
  | step {s : App} (e : Ev) : UIReachable s → uiEnabled s e = true → UIReachable (Unto.step s e).1

/-- A terminal poll response carried by an event. -/
def terminalPoll : Ev → Prop
  | .submitOk _ (.success ps) => ps.state = RunState.COMPLETE ∨ ps.state = RunState.FAILED
  | .tick _ (.success ps) => ps.state = RunState.COMPLETE ∨ ps.state = RunState.FAILED
  | _ => False

/-- Timer bookkeeping invariant of the reachable states: either no timer
is live and `pollingInterval` is null, or exactly one timer is live, its
callback captured a null `pollingInterval` (every reachable render that
calls `startPolling` has a null `pollingInterval`), the state slot points
at it, and the wizard sits at the processing or results step. -/
def TimerInv (s : App) : Prop :=
  (s.timers = [] ∧ s.pollingInterval = none) ∨
    (∃ t, s.timers = [(t, (none : Option Nat))] ∧ s.pollingInterval = some t ∧ 3 ≤ s.currentStep)

/-- A sample non-terminal poll body. -/
def psIP : PlanState :=
  { plan_run_id := "run1"
    state := .IN_PROGRESS
    current_step_index := 0
    outputs := .undefined
    final_output := .undefined
    error := none }

/-- The same body in the terminal `COMPLETE` state. -/
def psC : PlanState :=
  { psIP with state := .COMPLETE }

/-! ### Helper lemmas -/

/-- `jsonToMarkdown` maps every string to itself: an empty string is falsy
and yields the empty string, any other string is returned as written. -/
theorem jsonToMarkdown_str (s : String) : jsonToMarkdown (.str s) = s := by
  by_cases h : s = "" <;> simp [jsonToMarkdown, truthy, h]

/-- `pollPlanState` leaves `currentStep` alone except for forcing it to 4
on a terminal body. -/
theorem pollPlanState_currentStep (env : Option Nat) (r : PollResponse) (s : App) :
    (pollPlanState env r s).currentStep = s.currentStep ∨
      (pollPlanState env r s).currentStep = 4 := by
  cases r with
  | failure st => exact Or.inl rfl
  | success ps =>
    by_cases h : ps.state = RunState.COMPLETE ∨ ps.state = RunState.FAILED
    · cases env <;> simp [pollPlanState, h]
    · simp [pollPlanState, h]

/-- `pollPlanState` on a terminal body always lands on step 4. -/
theorem pollPlanState_terminal (env : Option Nat) (ps : PlanState) (s : App)
    (h : ps.state = RunState.COMPLETE ∨ ps.state = RunState.FAILED) :
    (pollPlanState env (.success ps) s).currentStep = 4 := by
  cases env <;> simp [pollPlanState, h]

/-- A successful submission lands on the processing step, or directly on
the results step when the immediate fetch already returns a terminal
body. -/
theorem submitOk_currentStep (init : PlanState) (r : PollResponse) (s : App) :
    ((step s (.submitOk init r)).1).currentStep = 3 ∨
      ((step s (.submitOk init r)).1).currentStep = 4 := by
  cases r with
  | failure st => exact Or.inl rfl
  | success ps =>
    by_cases h : ps.state = RunState.COMPLETE ∨ ps.state = RunState.FAILED
    · exact Or.inr (pollPlanState_terminal _ _ _ h)
    · left
      simp [step, startPlanning, pollPlanState, h]

/-- Every event preserves the step bound `currentStep ≤ 4`. -/
theorem step_currentStep_le (s : App) (e : Ev) (h : s.currentStep ≤ 4) :
    ((step s e).1).currentStep ≤ 4 := by
  cases e with
  | next =>
    simp only [step, nextStep, steps]
    split <;> simp_all <;> omega
  | prev =>
    simp only [step, prevStep]
    split <;> simp_all <;> omega
  | submitErr => exact h
  | submitOk init r =>
    rcases submitOk_currentStep init r s with h4 | h4 <;> omega
  | tick tid r =>
    simp only [step]
    cases hf : s.timers.find? (fun p => p.1 == tid) with
    | none => simpa using h
    | some p =>
      rcases pollPlanState_currentStep p.2 r s with h4 | h4 <;> simp_all
  | reset =>
    cases hp : s.pollingInterval <;> simp [step, resetApp, hp]

/-- UI-emittable events preserve the timer bookkeeping invariant. -/
theorem timerInv_step (s : App) (e : Ev) (hinv : TimerInv s) (hui : uiEnabled s e = true) :
    TimerInv ((step s e).1) := by
  cases e with
  | next =>
    rcases hinv with ⟨ht, hp⟩ | ⟨t, ht, hp, hc⟩
    · left
      simp only [step, nextStep]
      split <;> exact ⟨ht, hp⟩
    · exfalso
      simp only [uiEnabled, Bool.or_eq_true, Bool.and_eq_true, beq_iff_eq] at hui
      omega
  | prev =>
    rcases hinv with ⟨ht, hp⟩ | ⟨t, ht, hp, hc⟩
    · left
      simp only [step, prevStep]
      split <;> exact ⟨ht, hp⟩
    · exfalso
      simp only [uiEnabled, Bool.or_eq_true, beq_iff_eq] at hui
      omega
  | submitErr => exact hinv
  | submitOk init r =>
    rcases hinv with ⟨ht, hp⟩ | ⟨t, ht, hp, hc⟩
    · right
      refine ⟨s.nextId, ?_⟩
      cases r with
      | failure st =>
        simp [step, startPlanning, startPolling, pollPlanState, hp, ht]
      | success ps =>
        by_cases hterm : ps.state = RunState.COMPLETE ∨ ps.state = RunState.FAILED
        · simp [step, startPlanning, startPolling, pollPlanState, hp, ht, hterm]
        · simp [step, startPlanning, startPolling, pollPlanState, hp, ht, hterm]
    · exfalso
      simp only [uiEnabled, beq_iff_eq] at hui
      omega
  | tick tid r =>
    rcases hinv with ⟨ht, hp⟩ | ⟨t, ht, hp, hc⟩
    · left
      simp [step, ht, hp]
    · by_cases htid : t = tid
      · subst htid
        cases r with
        | failure st =>
          right
          refine ⟨t, ?_⟩
          simp [step, pollPlanState, ht, hp, hc]
        | success ps =>
          by_cases hterm : ps.state = RunState.COMPLETE ∨ ps.state = RunState.FAILED
          · right
            refine ⟨t, ?_⟩
            simp [step, pollPlanState, hterm, ht, hp]
          · right
            refine ⟨t, ?_⟩
            simp [step, pollPlanState, hterm, ht, hp, hc]
      · right
        exact ⟨t, by simp [step, ht, htid], by simp [step, ht, htid, hp],
          by simpa [step, ht, htid] using hc⟩
  | reset =>
    rcases hinv with ⟨ht, hp⟩ | ⟨t, ht, hp, hc⟩
    · left
      simp [step, resetApp, hp, ht]
    · left
      simp [step, resetApp, hp, ht]

/-- Every UI-reachable state satisfies the timer bookkeeping invariant. -/
theorem uiReachable_timerInv (s : App) (h : UIReachable s) : TimerInv s := by
  induction h with
  | init => exact Or.inl ⟨rfl, rfl⟩
  | step e _ hui ih => exact timerInv_step _ e ih hui

/-! ### Concrete payloads from the specification examples -/

/-- The `final_output` JSON string of the departure-flight example. -/
def jsonC4 : String :=
  "\x7b\"departureFlight\":\x7b\"Airline\":\"Acme\",\"price\":1000,\"departTime\":\"2025-03-15T10:00:00Z\",\"arrivalTime\":\"2025-03-15T12:00:00Z\"\x7d\x7d"

/-- The travel data encoded by `jsonC4`. -/
def tdC4 : JsValue :=
  .obj [("departureFlight",
    .obj [("Airline", .str "Acme"), ("price", .num 1000),
      ("departTime", .str "2025-03-15T10:00:00Z"), ("arrivalTime", .str "2025-03-15T12:00:00Z")])]

/-- The JSON string wrapped inside the `value` key in the accommodation
example. -/
def jsonC2 : String :=
  "\x7b\"accommodation\":\x7b\"HotelName\":\"X\",\"price\":500\x7d\x7d"

/-- The travel data encoded by `jsonC2`. -/
def tdC2 : JsValue :=
  .obj [("accommodation", .obj [("HotelName", .str "X"), ("price", .num 500)])]

/-! ### Claim theorems -/

/-- C10: the `jsonToMarkdown` renderer is a total terminating function on
every finite modelled JSON value — it is a plain recursive definition in
this development and the observable clauses hold: a falsy top-level input
(in particular `null`/`undefined`) yields the empty string, nested
`null`/`undefined` render as `"null"`, strings render as themselves,
numbers and booleans via `toString`, the empty array as `"[]"`, the empty
object as the brace pair, and composite values by structural recursion on
their strictly smaller children, always producing a string. -/
theorem C10_jsonToMarkdown_total_clauses :
    jsonToMarkdown .null = "" ∧ jsonToMarkdown .undefined = "" ∧
    (∀ s : String, jsonToMarkdown (.str s) = s) ∧
    (∀ d : Nat, formatValue .null d = "null") ∧
    (∀ d : Nat, formatValue .undefined d = "null") ∧
    (∀ (s : String) (d : Nat), formatValue (.str s) d = s) ∧
    (∀ (n : Int) (d : Nat), formatValue (.num n) d = toString n) ∧
    (∀ (b : Bool) (d : Nat), formatValue (.bool b) d = toString b) ∧
    (∀ d : Nat, formatValue (.arr []) d = "[]") ∧
    (∀ d : Nat, formatValue (.obj []) d = "\x7b\x7d") ∧
    (∀ (v : JsValue) (d : Nat),
      formatValue (.arr [v]) d = indent d ++ "- " ++ formatValue v (d + 1)) := by
  refine ⟨rfl, rfl, jsonToMarkdown_str, fun d => rfl, fun d => rfl, fun s d => rfl,
    fun n d => rfl, fun b d => rfl, fun d => rfl, fun d => rfl, fun v d => ?_⟩
  simp [formatValue, formatItems, String.intercalate, String.intercalate.go]

set_option maxRecDepth 100000 in
/-- C4: for the terminal `final_output` that is the JSON string of the
departure-flight example, the normalizer JSON-parses it into the candidate
travel data, `departureFlight.Airline` resolves to `"Acme"`, and the
computed total trip cost (absent prices counting as zero) is 1000. -/
theorem C4_json_string_final_output :
    parseJson jsonC4 = some tdC4 ∧
    extractTravelData (.str jsonC4) = tdC4 ∧
    getProp (getProp tdC4 "departureFlight") "Airline" = .str "Acme" ∧
    totalTripCost tdC4 = 1000 :=
  ⟨rfl, rfl, rfl, rfl⟩

/-- C5: a string `final_output` that fails JSON parsing produces no travel
data (the candidate stays null, hence falsy, so no cards render) and the
summary display is the raw string verbatim; in particular for
`"Trip booked!"`. -/
theorem C5_nonjson_string_final_output :
    (∀ s : String, parseJson s = none →
      extractTravelData (.str s) = .null ∧
      truthy (extractTravelData (.str s)) = false ∧
      summaryOf (.str s) = .verbatim s) ∧
    parseJson "Trip booked!" = none ∧
    summaryOf (.str "Trip booked!") = .verbatim "Trip booked!" ∧
    jsonToMarkdown (.str "Trip booked!") = "Trip booked!" := by
  refine ⟨fun s h => ⟨?_, ?_, ?_⟩, rfl, rfl, rfl⟩
  · simp [extractTravelData, h]
  · simp [extractTravelData, h, truthy]
  · simp [summaryOf, getProp, truthy, h, jsonToMarkdown_str]

/-- C5 witness: the general statement applied to the concrete non-JSON
string of the example. -/
theorem C5_nonjson_string_final_output_witness :
    parseJson "Trip booked!" = none ∧
    extractTravelData (.str "Trip booked!") = .null ∧
    summaryOf (.str "Trip booked!") = .verbatim "Trip booked!" :=
  ⟨rfl, (C5_nonjson_string_final_output.1 "Trip booked!" rfl).1,
    (C5_nonjson_string_final_output.1 "Trip booked!" rfl).2.2⟩

/-- C8: a submission whose POST fails is caught and only logged — the
machine state is unchanged in every component: no `PlanState` is stored,
no polling starts, `currentStep` stays put, and no fetch beyond the POST
itself is issued. -/
theorem C8_submit_failure_logged_only (s : App) :
    step s .submitErr = (s, 0) ∧
    ((step s .submitErr).1).planState = s.planState ∧
    ((step s .submitErr).1).currentStep = s.currentStep ∧
    ((step s .submitErr).1).timers = s.timers ∧
    ((step s .submitErr).1).pollingInterval = s.pollingInterval :=
  ⟨rfl, rfl, rfl, rfl, rfl⟩

/-- The state after a successful submission from the mounted component
(immediate fetch answered with an in-progress body). -/
def c1s1 : App := (step initApp (.submitOk psIP (.success psIP))).1

/-- The state after the first interval firing returns a `COMPLETE` body. -/
def c1s2 : App := (step c1s1 (.tick 0 (.success psC))).1

/-- C1 (code bug): in the run submit → immediate response `IN_PROGRESS` →
first firing returns `COMPLETE`, the terminal body is applied (plan state
`COMPLETE`, step forced to 4) yet the repeating timer is NOT cancelled:
the terminal branch tests the `pollingInterval` captured by the interval
callback closure, which is still `null` from the render that created the
interval, so `clearInterval` is skipped, `pollingInterval` stays set, and
the next firing still issues a status fetch — even a second `COMPLETE`
response leaves the timer alive. -/
theorem C1_polling_continues_after_complete :
    c1s2.planState.map PlanState.state = some RunState.COMPLETE ∧
    c1s2.currentStep = 4 ∧
    c1s2.timers = [(0, none)] ∧
    c1s2.pollingInterval = some 0 ∧
    (step c1s2 (.tick 0 (.failure 500))).2 = 1 ∧
    ((step c1s2 (.tick 0 (.success psC))).1).timers = [(0, none)] :=
  ⟨rfl, rfl, rfl, rfl, rfl, rfl⟩

/-- Reading a field through `getProp` on an object is `lookup` with an
`undefined` default. -/
theorem getProp_obj (fields : List (String × JsValue)) (k : String) :
    getProp (.obj fields) k = (fields.lookup k).getD .undefined := by
  simp only [getProp]
  cases fields.lookup k <;> rfl

/-- A successful `lookup` means the key is present (`'k' in obj`). -/
theorem hasKey_of_lookup {fields : List (String × JsValue)} {k : String} {v : JsValue}
    (h : fields.lookup k = some v) : hasKey fields k = true := by
  induction fields with
  | nil => simp at h
  | cons p fs ih =>
    obtain ⟨a, b⟩ := p
    rw [List.lookup_cons] at h
    simp only [hasKey, List.map_cons, List.contains_cons] at ih ⊢
    cases hk : k == a with
    | true => simp [hk]
    | false =>
      rw [hk] at h
      have h2 : List.lookup k fs = some v := h
      rw [Bool.false_or]
      exact ih h2

/-- C2 counterexample: for the non-string object `\x7b"value": 0\x7d`,
which contains a `value` key, the `page.tsx` normalizer does NOT resolve
the candidate travel data from that key (which would give `0`): the value
is falsy, so the whole object is taken instead. -/
theorem C2_counterexample :
    extractTravelData (.obj [("value", .num 0)]) = .obj [("value", .num 0)] ∧
    ¬ extractTravelData (.obj [("value", .num 0)]) = .num 0 := by
  refine ⟨rfl, fun h => ?_⟩
  have h2 : JsValue.obj [("value", JsValue.num 0)] = JsValue.num 0 := h
  exact JsValue.noConfusion h2

set_option maxRecDepth 100000 in
/-- C2 (amended): in the `part_000` variant the claim holds as stated: a
present `value` key is always consulted — a string value is JSON-parsed
(null candidate on failure), any other value is the candidate itself. In
the `page.tsx` variant the `value` key is consulted only when its value is
truthy (same resolution then); when it is falsy, `final_output` itself
becomes the candidate. On a parse failure of a string value the raw string
is displayed. For the concrete accommodation example both variants resolve
`accommodation.HotelName = "X"` and total cost 500. -/
theorem C2_value_key_resolution :
    (∀ (fields : List (String × JsValue)) (s : String),
      getProp (.obj fields) "value" = .str s → s ≠ "" →
      extractTravelData (.obj fields) = (parseJson s).getD .null) ∧
    (∀ (fields : List (String × JsValue)) (s : String),
      getProp (.obj fields) "value" = .str s →
      extractTravelDataV2 (.obj fields) = (parseJson s).getD .null) ∧
    (∀ (fields : List (String × JsValue)) (v : JsValue),
      getProp (.obj fields) "value" = v → truthy v = true → isStr v = false →
      extractTravelData (.obj fields) = v) ∧
    (∀ (fields : List (String × JsValue)) (v : JsValue),
      hasKey fields "value" = true → getProp (.obj fields) "value" = v → isStr v = false →
      extractTravelDataV2 (.obj fields) = v) ∧
    (∀ (fields : List (String × JsValue)) (v : JsValue),
      getProp (.obj fields) "value" = v → truthy v = false →
      extractTravelData (.obj fields) = .obj fields) ∧
    (extractTravelData (.obj [("value", .str jsonC2)]) = tdC2 ∧
      extractTravelDataV2 (.obj [("value", .str jsonC2)]) = tdC2 ∧
      getProp (getProp tdC2 "accommodation") "HotelName" = .str "X" ∧
      totalTripCost tdC2 = 500) ∧
    (extractTravelData (.obj [("value", .str "not json")]) = .null ∧
      extractTravelDataV2 (.obj [("value", .str "not json")]) = .null ∧
      summaryOf (.obj [("value", .str "not json")]) = .verbatim "not json") := by
  refine ⟨?_, ?_, ?_, ?_, ?_, ⟨rfl, rfl, rfl, rfl⟩, rfl, rfl, rfl⟩
  · intro fields s hget hs
    simp [extractTravelData, hget, truthy, hs]
  · intro fields s hget
    have hl : fields.lookup "value" = some (.str s) := by
      rw [getProp_obj] at hget
      cases hl2 : fields.lookup "value" with
      | none => rw [hl2] at hget; exact absurd hget (by simp)
      | some x => rw [hl2] at hget; simpa using congrArg some hget
    have hk : hasKey fields "value" = true := hasKey_of_lookup hl
    simp [extractTravelDataV2, hk, hget]
  · intro fields v hget htr hstr
    cases v <;> simp_all [extractTravelData, isStr]
  · intro fields v hk hget hstr
    cases v <;> simp_all [extractTravelDataV2, isStr]
  · intro fields v hget htr
    simp [extractTravelData, hget, htr]

/-- C2 witness: the general page-variant resolution applied to the
concrete wrapped accommodation example. -/
theorem C2_value_key_resolution_witness :
    extractTravelData (.obj [("value", .str jsonC2)]) = (parseJson jsonC2).getD .null :=
  C2_value_key_resolution.1 [("value", .str jsonC2)] jsonC2 rfl (by decide)

/-- C3: the results step is never the outcome of an enabled manual
advance (Continue exists only at steps 0 and 1, so an enabled `nextStep`
lands at most on step 2); an enabled event landing on step 4 from
elsewhere carries a terminal poll response; and a terminal poll response
always forces step 4 regardless of the current step. -/
theorem C3_results_only_by_terminal_poll :
    (∀ s : App, uiEnabled s .next = true → ((step s .next).1).currentStep ≤ 2) ∧
    (∀ (s : App) (e : Ev), uiEnabled s e = true → ((step s e).1).currentStep = 4 →
      s.currentStep = 4 ∨ terminalPoll e) ∧
    (∀ (env : Option Nat) (ps : PlanState) (s : App),
      ps.state = RunState.COMPLETE ∨ ps.state = RunState.FAILED →
      (pollPlanState env (.success ps) s).currentStep = 4) := by
  refine ⟨?_, ?_, fun env ps s h => pollPlanState_terminal env ps s h⟩
  · intro s h
    simp only [uiEnabled, Bool.or_eq_true, Bool.and_eq_true, beq_iff_eq] at h
    rcases h with ⟨h0, -⟩ | ⟨h0, -⟩ <;> simp [step, nextStep, steps, h0]
  · intro s e hui h4
    cases e with
    | next =>
      simp only [uiEnabled, Bool.or_eq_true, Bool.and_eq_true, beq_iff_eq] at hui
      rcases hui with ⟨h0, -⟩ | ⟨h0, -⟩ <;> simp [step, nextStep, steps, h0] at h4
    | prev =>
      simp only [uiEnabled, Bool.or_eq_true, beq_iff_eq] at hui
      rcases hui with h1 | h1 <;> simp [step, prevStep, h1] at h4
    | submitErr => exact Or.inl h4
    | submitOk init r =>
      cases r with
      | failure st => exact absurd h4 (by simp [step, startPlanning, startPolling, pollPlanState])
      | success ps =>
        by_cases hterm : ps.state = RunState.COMPLETE ∨ ps.state = RunState.FAILED
        · exact Or.inr hterm
        · exact absurd h4 (by simp [step, startPlanning, startPolling, pollPlanState, hterm])
    | tick tid r =>
      cases hf : s.timers.find? (fun p => p.1 == tid) with
      | none => left; simpa [step, hf] using h4
      | some p =>
        cases r with
        | failure st => left; simpa [step, hf, pollPlanState] using h4
        | success ps =>
          by_cases hterm : ps.state = RunState.COMPLETE ∨ ps.state = RunState.FAILED
          · exact Or.inr hterm
          · left; simpa [step, hf, pollPlanState, hterm] using h4
    | reset =>
      cases hp : s.pollingInterval <;> simp [step, resetApp, hp] at h4

/-- C3 witness: an enabled Continue click from step 0 with both cities
filled lands on step 1. -/
theorem C3_results_only_by_terminal_poll_witness :
    ((step { initApp with formData := { defaultFormData with origin := "Paris", destination := "Tokyo" } } .next).1).currentStep ≤ 2 :=
  C3_results_only_by_terminal_poll.1 _ (by decide)

/-- C6: the reset handler always yields step 0, the canonical default
form data and a cleared plan state, from any machine state whatsoever;
and from any UI-reachable state it also cancels the live polling timer
and nulls the interval slot. -/
theorem C6_reset_canonical :
    (∀ s : App,
      ((step s .reset).1).currentStep = 0 ∧
      ((step s .reset).1).formData =
        { origin := "", destination := "", departure_date := "", return_date := "", cabin_class := "economy", passengers := 1 } ∧
      ((step s .reset).1).planState = none) ∧
    (∀ s : App, UIReachable s →
      ((step s .reset).1).timers = [] ∧ ((step s .reset).1).pollingInterval = none) := by
  constructor
  · intro s
    cases hp : s.pollingInterval <;> simp [step, resetApp, hp, defaultFormData]
  · intro s hreach
    rcases uiReachable_timerInv s hreach with ⟨ht, hp⟩ | ⟨t, ht, hp, -⟩ <;>
      simp [step, resetApp, hp, ht]

/-- C6 witness: reset applied at the mounted (UI-reachable) component. -/
theorem C6_reset_canonical_witness :
    ((step initApp .reset).1).timers = [] ∧ ((step initApp .reset).1).pollingInterval = none :=
  C6_reset_canonical.2 initApp UIReachable.init

/-- C7: a poll fetch that fails (HTTP 404 or any other non-2xx) skips the
tick: the whole machine state — stored plan state, current step, live
timers — is unchanged, the timer is not cancelled, and the next firing of
the live timer issues a fetch again. -/
theorem C7_poll_failure_tick_skipped (s : App) (tid st : Nat) (r : PollResponse)
    (h : (s.timers.find? (fun p => p.1 == tid)).isSome = true) :
    (step s (.tick tid (.failure st))).1 = s ∧
    (step s (.tick tid (.failure st))).2 = 1 ∧
    (step s (.tick tid r)).2 = 1 := by
  cases hf : s.timers.find? (fun p => p.1 == tid) with
  | none => rw [hf] at h; exact absurd h (by simp)
  | some p => exact ⟨by simp [step, hf, pollPlanState], by simp [step, hf], by simp [step, hf]⟩

/-- C7 witness: after a submission whose immediate fetch got a 404, the
timer with id 0 is live, and a failing tick leaves the state unchanged. -/
theorem C7_poll_failure_tick_skipped_witness :
    (((step initApp (.submitOk psIP (.failure 404))).1.timers.find? (fun p => p.1 == 0)).isSome = true) ∧
    (step (step initApp (.submitOk psIP (.failure 404))).1 (.tick 0 (.failure 404))).1 =
      (step initApp (.submitOk psIP (.failure 404))).1 :=
  ⟨by decide, (C7_poll_failure_tick_skipped _ 0 404 (.failure 404) (by decide)).1⟩

/-- C9: `currentStep` always stays in 0..4: every event preserves the
bound, every UI-reachable state satisfies it, the advance is an increment
clamped at the last index 4, the retreat is a decrement clamped at 0, a
submission (whose immediate fetch is not a terminal success) sets step 3,
a terminal poll response sets step 4, and reset sets step 0. -/
theorem C9_currentStep_invariant :
    (∀ (s : App) (e : Ev), s.currentStep ≤ 4 → ((step s e).1).currentStep ≤ 4) ∧
    (∀ s : App, UIReachable s → s.currentStep ≤ 4) ∧
    (∀ s : App, s.currentStep ≤ 4 → ((step s .next).1).currentStep = min (s.currentStep + 1) 4) ∧
    (∀ s : App, ((step s .prev).1).currentStep = s.currentStep - 1) ∧
    (∀ (s : App) (init : PlanState) (st : Nat),
      ((step s (.submitOk init (.failure st))).1).currentStep = 3) ∧
    (∀ (env : Option Nat) (ps : PlanState) (s : App),
      ps.state = RunState.COMPLETE ∨ ps.state = RunState.FAILED →
      (pollPlanState env (.success ps) s).currentStep = 4) ∧
    (∀ s : App, ((step s .reset).1).currentStep = 0) := by
  refine ⟨step_currentStep_le, ?_, ?_, ?_, fun s init st => rfl,
    fun env ps s h => pollPlanState_terminal env ps s h, ?_⟩
  · intro s h
    induction h with
    | init => exact Nat.zero_le 4
    | step e _ _ ih => exact step_currentStep_le _ e ih
  · intro s h
    simp only [step, nextStep]
    rw [show steps.length - 1 = 4 from rfl]
    split
    · show s.currentStep + 1 = min (s.currentStep + 1) 4
      omega
    · show s.currentStep = min (s.currentStep + 1) 4
      omega
  · intro s
    simp only [step, prevStep]
    split
    · rfl
    · show s.currentStep = s.currentStep - 1
      omega
  · intro s
    cases hp : s.pollingInterval <;> simp [step, resetApp, hp]

/-- C9 witness: the bound and the clamped advance at the mounted
component. -/
theorem C9_currentStep_invariant_witness :
    initApp.currentStep ≤ 4 ∧
    ((step initApp .next).1).currentStep = min (initApp.currentStep + 1) 4 :=
  ⟨C9_currentStep_invariant.2.1 initApp UIReachable.init,
    C9_currentStep_invariant.2.2.1 initApp (by decide)⟩

end Unto
